import Mathlib

/-!
Verification of the peer-to-peer RPC multiplexer (`PeerRpcManager` in
`easytier-core/src/peers/peer_rpc.rs`).

The embedding models:
* the packet envelope (`Packet`, `PacketBody`, `CtrlPacketBody::TaRpc`),
* `PeerRpcManager::parse_rpc_packet`,
* `PeerRpcManager::run_service` (service-registry registration and the
  per-endpoint bridge task spawned by the endpoint creator),
* the dispatcher loop spawned by `PeerRpcManager::run`,
* the egress task and response-sink registration of
  `PeerRpcManager::do_client_rpc_scoped`.

Concurrent `DashMap`s are modelled as association lists with
replace-on-insert semantics; unbounded mpsc queues are modelled as the
lists of messages they carry; each spawned task is modelled as an
explicit step function on its state, driven by an arbitrary sequence of
events (one event per branch of its `select!`/`while let` loop).
-/

namespace PeerRpc

/-- Peer identifier, a 128-bit `uuid::Uuid`; equality is bit-exact, so a
`Nat` below `2^128` is a faithful stand-in. -/
abbrev UUID := Nat

/-- Service id; `type PeerRpcServiceId = u32` in the source. -/
abbrev PeerRpcServiceId := Nat

/-- Modelled from the spec: the control-packet body enum of
`peers/packet.rs` (not under `src/`); only the `TaRpc` variant
`(service_id, is_req, body)` is relevant, the remaining control variants
are collapsed into one opaque constructor. -/
inductive CtrlPacketBody where
  | TaRpc (service_id : PeerRpcServiceId) (is_req : Bool) (body : List Nat)
  | OtherCtrl (tag : Nat)
  deriving DecidableEq, Repr

/-- Modelled from the spec: the packet body enum of `peers/packet.rs`;
the non-control variants are collapsed into one opaque constructor. -/
inductive PacketBody where
  | Ctrl (b : CtrlPacketBody)
  | Other (tag : Nat)
  deriving DecidableEq, Repr

/-- Modelled from the spec: the packet envelope of `peers/packet.rs` —
`from_peer : UUID`, `to_peer : optional UUID`, and a body. Payload bytes
are a `List Nat`. -/
structure Packet where
  from_peer : UUID
  to_peer : Option UUID
  body : PacketBody
  deriving DecidableEq, Repr

/-- Modelled from the spec: `Packet::new_tarpc_packet(from, to,
service_id, is_request, payload)` builds a packet whose body is the
`TaRpc` variant carrying `(service_id, is_request, payload)`. -/
def Packet.new_tarpc_packet (from_peer to_peer : UUID)
    (service_id : PeerRpcServiceId) (is_req : Bool) (payload : List Nat) :
    Packet :=
  { from_peer := from_peer
    to_peer := some to_peer
    body := .Ctrl (.TaRpc service_id is_req payload) }

/-- The `struct TaRpcPacketInfo` of `peer_rpc.rs`. -/
structure TaRpcPacketInfo where
  from_peer : UUID
  to_peer : UUID
  service_id : PeerRpcServiceId
  is_req : Bool
  content : List Nat
  deriving DecidableEq, Repr

/-- Outcome of `PeerRpcManager::parse_rpc_packet`: `ok` for
`Ok(TaRpcPacketInfo)`, `error` for `Err(Error::ShellCommandError)`, and
`panicked` for the `packet.to_peer.clone().unwrap()` panic on a missing
`to_peer`. -/
inductive ParseResult where
  | ok (info : TaRpcPacketInfo)
  | error
  | panicked
  deriving DecidableEq, Repr

/-- Embedding of `PeerRpcManager::parse_rpc_packet`: matches the body against
`PacketBody::Ctrl(CtrlPacketBody::TaRpc(id, is_req, body))`; any other
variant is an error; inside the match arm `packet.to_peer` is
`unwrap`ped, which panics when it is `None`. -/
def parse_rpc_packet (packet : Packet) : ParseResult :=
  match packet.body with
  | .Ctrl (.TaRpc id is_req body) =>
    match packet.to_peer with
    | some t => .ok ⟨packet.from_peer, t, id, is_req, body⟩
    | none => .panicked
  | _ => .error

/-- An endpoint creator (`PeerRpcEndPointCreator`): the closure built in
`run_service` captures the `service_id` argument and the service handler
`s`; handlers are identified by an opaque tag. -/
structure Creator where
  captured_service_id : PeerRpcServiceId
  handler : Nat
  deriving DecidableEq, Repr

/-- The `struct PeerRpcEndPoint` together with the state of its bridge task:
`peer_id` is the creator's argument (the bound remote peer),
`bridge_service_id` is the `service_id` captured by the bridge-task
closure, and `inbox` is the queue of packets sent to `packet_sender`. -/
structure PeerRpcEndPoint where
  peer_id : UUID
  bridge_service_id : PeerRpcServiceId
  inbox : List Packet
  deriving DecidableEq, Repr

/-- Association-list lookup, modelling `DashMap::get`. -/
def alookup {α β : Type} [DecidableEq α] : List (α × β) → α → Option β
  | [], _ => none
  | (k, v) :: rest, k' => if k = k' then some v else alookup rest k'

/-- Association-list insert with replacement, modelling
`DashMap::insert` / `Entry::or_insert_with`. -/
def ainsert {α β : Type} [DecidableEq α] : List (α × β) → α → β → List (α × β)
  | [], k, v => [(k, v)]
  | (k0, v0) :: rest, k, v =>
    if k0 = k then (k, v) :: rest else (k0, v0) :: ainsert rest k v

/-- Number of entries stored under a key. -/
def keyCount {α β : Type} [DecidableEq α] (l : List (α × β)) (k : α) : Nat :=
  (l.filter (fun kv => kv.1 = k)).length

/-- The shared maps of `PeerRpcManager`: the service registry
(`service_registry`), the endpoint map (`peer_rpc_endpoints`, keyed by
`(uuid, service_id)`), and the client response sinks
(`client_resp_receivers`, keyed by `PeerRpcClientCtxKey(uuid,
service_id)`; each sink is modelled by the packets delivered to it). -/
structure PeerRpcManagerState where
  service_registry : List (PeerRpcServiceId × Creator)
  peer_rpc_endpoints : List ((UUID × PeerRpcServiceId) × PeerRpcEndPoint)
  client_resp_receivers : List ((UUID × PeerRpcServiceId) × List Packet)
  deriving DecidableEq, Repr

/-- Embedding of `PeerRpcManager::run_service`: builds the endpoint creator capturing
`service_id` and the handler, inserts it into `service_registry`, and —
when the insert returns a previous entry — panics. Returns the updated
state and whether the call panicked; the insert has already happened
when the panic fires. -/
def run_service (st : PeerRpcManagerState) (service_id : PeerRpcServiceId)
    (handler : Nat) : PeerRpcManagerState × Bool :=
  let old := alookup st.service_registry service_id
  let st' := { st with
    service_registry :=
      ainsert st.service_registry service_id ⟨service_id, handler⟩ }
  (st', old.isSome)

/-- What one iteration of the dispatcher loop in `PeerRpcManager::run`
did with the packet it received. `panicked` covers the
`parse_rpc_packet(&packet).unwrap()` failure. -/
inductive DispatchAction where
  | panicked
  | dropUnknownService
  | enqueuedToEndpoint (key : UUID × PeerRpcServiceId) (created : Bool)
  | deliveredToClient (key : UUID × PeerRpcServiceId)
  | dropNoClientSink
  deriving DecidableEq, Repr

def DispatchAction.isPanic : DispatchAction → Bool
  | .panicked => true
  | _ => false

/-- One iteration of the dispatcher loop in `PeerRpcManager::run`,
starting from the already decoded packet: parse it (the `.unwrap()`
panics on failure); on a request, drop if the service is unregistered,
otherwise find the endpoint under `(info.to_peer, info.service_id)` or
create it by calling the registered creator with `info.from_peer`, and
enqueue the packet into its inbox; on a response, deliver to the client
sink under `(info.from_peer, info.service_id)` or log-and-drop. -/
def dispatchPacket (st : PeerRpcManagerState) (packet : Packet) :
    PeerRpcManagerState × DispatchAction :=
  match parse_rpc_packet packet with
  | .error => (st, .panicked)
  | .panicked => (st, .panicked)
  | .ok info =>
    if info.is_req then
      match alookup st.service_registry info.service_id with
      | none => (st, .dropUnknownService)
      | some creator =>
        let key := (info.to_peer, info.service_id)
        match alookup st.peer_rpc_endpoints key with
        | some ep =>
          let eps :=
            ainsert st.peer_rpc_endpoints key
              { ep with inbox := ep.inbox ++ [packet] }
          ({ st with peer_rpc_endpoints := eps },
           .enqueuedToEndpoint key false)
        | none =>
          let ep : PeerRpcEndPoint :=
            ⟨info.from_peer, creator.captured_service_id, [packet]⟩
          let eps := ainsert st.peer_rpc_endpoints key ep
          ({ st with peer_rpc_endpoints := eps },
           .enqueuedToEndpoint key true)
    else
      let key := (info.from_peer, info.service_id)
      match alookup st.client_resp_receivers key with
      | some q =>
        let sinks := ainsert st.client_resp_receivers key (q ++ [packet])
        ({ st with client_resp_receivers := sinks },
         .deliveredToClient key)
      | none => (st, .dropNoClientSink)

/-- The dispatcher loop run over a sequence of received packets; a
panicking iteration kills the spawned task, so no later packet is
served. -/
def dispatchAll (st : PeerRpcManagerState) :
    List Packet → PeerRpcManagerState × List DispatchAction
  | [] => (st, [])
  | p :: rest =>
    let r := dispatchPacket st p
    if r.2.isPanic then (r.1, [r.2])
    else ((dispatchAll r.1 rest).1, r.2 :: (dispatchAll r.1 rest).2)

/-- Number of endpoints in the map whose bound remote peer and service
are the given pair (the bound remote is the argument the creator was
invoked with). -/
def endpointsBoundTo
    (eps : List ((UUID × PeerRpcServiceId) × PeerRpcEndPoint))
    (remote : UUID) (service_id : PeerRpcServiceId) : Nat :=
  (eps.filter
    (fun kv => kv.2.peer_id = remote ∧ kv.1.2 = service_id)).length

/-- Parameters captured by the bridge task spawned inside the endpoint
creator of `run_service`: the codec (`bincode::serialize` on responses,
`bincode::deserialize` on request payloads, both fallible), this node's
id, the bound remote peer (the creator argument `peer_id`), and the
captured `service_id`. `Resp` and `Req` are the user RPC message types.
-/
structure BridgeCfg (Resp Req : Type) where
  serResp : Resp → Option (List Nat)
  deserReq : List Nat → Option Req
  my_peer_id : UUID
  peer_id : UUID
  service_id : PeerRpcServiceId

/-- The mutable state of the bridge task: the single
"current request origin" slot `cur_req_uuid`. -/
structure BridgeState where
  cur_req_uuid : Option UUID
  deriving DecidableEq, Repr

/-- One firing of the bridge task's `tokio::select!`: either a response
(or channel error) arrives on `client_transport`, or a packet arrives on
`packet_receiver`. -/
inductive BridgeEvent (Resp : Type) where
  | clientResp (r : Except Unit Resp)
  | inboundPacket (p : Packet)

/-- The observable effect of one bridge iteration: nothing (a
logged-and-skipped case), a response packet handed to `tspt.send`
addressed to a destination peer, a decoded request injected into
`client_transport`, or a task-killing panic (the `assert_eq!` or the
`to_peer` unwrap inside `parse_rpc_packet`). -/
inductive BridgeEffect (Req : Type) where
  | skip
  | sendResp (msg : Packet) (dst : UUID)
  | injectReq (m : Req)
  | panicked
  deriving DecidableEq

def BridgeEffect.isPanic {Req : Type} : BridgeEffect Req → Bool
  | .panicked => true
  | _ => false

/-- One iteration of the bridge task's loop (`run_service`, the task
spawned after `server.execute`):
* a channel error on `client_transport` is logged and skipped;
* a response with `cur_req_uuid == None` is logged and skipped;
* a response whose serialization fails is logged and skipped (the slot
  is left in place);
* otherwise the response is wrapped via `new_tarpc_packet(my_peer_id,
  cur_req_uuid.take().unwrap(), service_id, false, bytes)` — clearing
  the slot — and handed to `tspt.send(msg, &peer_id)`;
* an inbound packet is parsed (`Err` is logged and skipped; a missing
  `to_peer` panics), `assert_eq!(info.service_id, service_id)` fires,
  the slot is overwritten with `packet.from_peer`, and the payload is
  deserialized (failure is logged and skipped) and injected into
  `client_transport`. -/
def bridgeStep {Resp Req : Type} (cfg : BridgeCfg Resp Req)
    (st : BridgeState) :
    BridgeEvent Resp → BridgeState × BridgeEffect Req
  | .clientResp (.error _) => (st, .skip)
  | .clientResp (.ok resp) =>
    match st.cur_req_uuid with
    | none => (st, .skip)
    | some origin =>
      match cfg.serResp resp with
      | none => (st, .skip)
      | some bytes =>
        (⟨none⟩,
         .sendResp
           (Packet.new_tarpc_packet cfg.my_peer_id origin cfg.service_id
             false bytes)
           cfg.peer_id)
  | .inboundPacket p =>
    match parse_rpc_packet p with
    | .error => (st, .skip)
    | .panicked => (st, .panicked)
    | .ok info =>
      if info.service_id = cfg.service_id then
        match cfg.deserReq info.content with
        | none => (⟨some p.from_peer⟩, .skip)
        | some m => (⟨some p.from_peer⟩, .injectReq m)
      else (st, .panicked)

/-- The bridge task run over a sequence of select firings; a panic kills
the task, so no later event is processed. -/
def bridgeRun {Resp Req : Type} (cfg : BridgeCfg Resp Req)
    (st : BridgeState) :
    List (BridgeEvent Resp) → BridgeState × List (BridgeEffect Req)
  | [] => (st, [])
  | ev :: rest =>
    let r := bridgeStep cfg st ev
    if r.2.isPanic then (r.1, [r.2])
    else ((bridgeRun cfg r.1 rest).1, r.2 :: (bridgeRun cfg r.1 rest).2)

/-- Holds (`true`) when between any two request injections a response was handed
to the transport: the serial-processing discipline the spec requires of
the bridge. The flag records whether a request has been injected with no
response emitted since. -/
def strictlySerial {Req : Type} :
    Bool → List (BridgeEffect Req) → Bool
  | _, [] => true
  | pending, .injectReq _ :: rest =>
    if pending then false else strictlySerial true rest
  | _, .sendResp _ _ :: rest => strictlySerial false rest
  | pending, .skip :: rest => strictlySerial pending rest
  | pending, .panicked :: rest => strictlySerial pending rest

/-- Number of response packets handed to the transport. -/
def countSendResp {Req : Type} : List (BridgeEffect Req) → Nat
  | [] => 0
  | .sendResp _ _ :: rest => countSendResp rest + 1
  | _ :: rest => countSendResp rest

/-- Number of inbound-packet events in a bridge event trace. -/
def countInbound {Resp : Type} : List (BridgeEvent Resp) → Nat
  | [] => 0
  | .inboundPacket _ :: rest => countInbound rest + 1
  | _ :: rest => countInbound rest

/-- The `from_peer` fields of the inbound-packet events of a trace: the
candidate request origins. -/
def inboundOrigins {Resp : Type} : List (BridgeEvent Resp) → List UUID
  | [] => []
  | .inboundPacket p :: rest => p.from_peer :: inboundOrigins rest
  | _ :: rest => inboundOrigins rest

/-- The egress task of `PeerRpcManager::do_client_rpc_scoped`: for each
item read from `server_r` — a channel error is logged and skipped, a
message whose `bincode::serialize` fails is logged and skipped —
the serialized bytes are wrapped via `new_tarpc_packet(my_peer_id,
dst_peer_id, service_id, true, bytes)` and handed to
`tspt.send(packet, &dst_peer_id)`. Returns the `(packet, destination)`
pairs handed to the transport, in order. -/
def egress_packets {Msg : Type} (ser : Msg → Option (List Nat))
    (my_peer_id dst_peer_id : UUID) (service_id : PeerRpcServiceId) :
    List (Except Unit Msg) → List (Packet × UUID)
  | [] => []
  | .error _ :: rest => egress_packets ser my_peer_id dst_peer_id service_id rest
  | .ok m :: rest =>
    match ser m with
    | none => egress_packets ser my_peer_id dst_peer_id service_id rest
    | some bytes =>
      (Packet.new_tarpc_packet my_peer_id dst_peer_id service_id true bytes,
        dst_peer_id) ::
        egress_packets ser my_peer_id dst_peer_id service_id rest

/-- The response-sink registration of `do_client_rpc_scoped`:
`client_resp_receivers.insert(PeerRpcClientCtxKey(dst_peer_id,
service_id), packet_sender)` — the fresh (empty) queue replaces any
sink previously registered under that key; the returned previous entry
is discarded. This happens before `f(client_transport)` is awaited. -/
def register_client_resp_receiver
    (sinks : List ((UUID × PeerRpcServiceId) × List Packet))
    (dst_peer_id : UUID) (service_id : PeerRpcServiceId) :
    List ((UUID × PeerRpcServiceId) × List Packet) :=
  ainsert sinks (dst_peer_id, service_id) []

/-- A packet that is a request on service `S` addressed with
`to_peer = T` — the shape of every packet the dispatcher routes to the
endpoint stored under key `(T, S)`. -/
def isReqTo (T : UUID) (S : PeerRpcServiceId) (q : Packet) : Prop :=
  q.to_peer = some T ∧ ∃ content, q.body = .Ctrl (.TaRpc S true content)

/-- Well-formedness of the service registry: every creator stored under
a service id captured that same id — exactly what `run_service`
establishes, since the creator closure captures `run_service`'s own
`service_id` argument, the key it is inserted under. -/
def RegistryWF (reg : List (PeerRpcServiceId × Creator)) : Prop :=
  ∀ kv ∈ reg, kv.2.captured_service_id = kv.1

/-- Invariant of the endpoint map: each endpoint's bridge task captured
the service id of its own key, and every packet in its inbound queue
parses successfully to an info carrying that same service id. -/
def EndpointsWF
    (eps : List ((UUID × PeerRpcServiceId) × PeerRpcEndPoint)) : Prop :=
  ∀ kv ∈ eps, kv.2.bridge_service_id = kv.1.2 ∧
    ∀ p ∈ kv.2.inbox, ∃ info, parse_rpc_packet p = .ok info ∧
      info.service_id = kv.2.bridge_service_id

/-! ### Association-list lemmas -/

theorem alookup_ainsert_self {α β : Type} [DecidableEq α]
    (l : List (α × β)) (k : α) (v : β) :
    alookup (ainsert l k v) k = some v := by
  induction l with
  | nil => simp [ainsert, alookup]
  | cons kv rest ih =>
    obtain ⟨k0, v0⟩ := kv
    by_cases h : k0 = k
    · simp [ainsert, alookup, h]
    · simp [ainsert, alookup, h, ih]

theorem alookup_ainsert_ne {α β : Type} [DecidableEq α]
    (l : List (α × β)) (k : α) (v : β) (q : α) (h : q ≠ k) :
    alookup (ainsert l k v) q = alookup l q := by
  have hk : k ≠ q := fun hh => h hh.symm
  induction l with
  | nil => simp [ainsert, alookup, hk]
  | cons kv rest ih =>
    obtain ⟨k0, v0⟩ := kv
    by_cases h0 : k0 = k
    · subst h0
      simp [ainsert, alookup, hk]
    · by_cases hq : k0 = q <;>
        simp [ainsert, alookup, h0, hq, hk, h, ih]

theorem mem_ainsert {α β : Type} [DecidableEq α]
    (l : List (α × β)) (k : α) (v : β) (kv : α × β)
    (hm : kv ∈ ainsert l k v) : kv = (k, v) ∨ kv ∈ l := by
  induction l with
  | nil => simpa [ainsert] using hm
  | cons kv0 rest ih =>
    obtain ⟨k0, v0⟩ := kv0
    by_cases h0 : k0 = k
    · simp only [ainsert, if_pos h0, List.mem_cons] at hm
      rcases hm with h | h
      · exact Or.inl h
      · exact Or.inr (List.mem_cons_of_mem _ h)
    · simp only [ainsert, if_neg h0, List.mem_cons] at hm
      rcases hm with h | h
      · exact Or.inr (by simp [h])
      · rcases ih h with h' | h'
        · exact Or.inl h'
        · exact Or.inr (List.mem_cons_of_mem _ h')

theorem alookup_mem {α β : Type} [DecidableEq α]
    (l : List (α × β)) (k : α) (v : β)
    (h : alookup l k = some v) : (k, v) ∈ l := by
  induction l with
  | nil => simp [alookup] at h
  | cons kv0 rest ih =>
    obtain ⟨k0, v0⟩ := kv0
    simp only [alookup] at h
    by_cases h0 : k0 = k
    · rw [if_pos h0] at h
      injection h with h'
      subst h'
      subst h0
      exact List.mem_cons_self _ _
    · rw [if_neg h0] at h
      exact List.mem_cons_of_mem _ (ih h)

theorem keyCount_ainsert {α β : Type} [DecidableEq α]
    (l : List (α × β)) (k : α) (v : β) :
    keyCount (ainsert l k v) k = max (keyCount l k) 1 := by
  induction l with
  | nil => simp [ainsert, keyCount]
  | cons kv0 rest ih =>
    obtain ⟨k0, v0⟩ := kv0
    by_cases h0 : k0 = k
    · subst h0
      simp only [ainsert, if_pos rfl, keyCount, List.filter_cons] at *
      simp
    · simp only [ainsert, if_neg h0, keyCount, List.filter_cons] at *
      simp [h0] at *
      exact ih

theorem alookup_none_keyCount {α β : Type} [DecidableEq α]
    (l : List (α × β)) (k : α) (h : alookup l k = none) :
    keyCount l k = 0 := by
  induction l with
  | nil => simp [keyCount]
  | cons kv0 rest ih =>
    obtain ⟨k0, v0⟩ := kv0
    by_cases h0 : k0 = k
    · simp [alookup, h0] at h
    · simp only [alookup, if_neg h0] at h
      simp [keyCount, List.filter_cons, h0] at *
      exact ih h

theorem alookup_isSome_keyCount {α β : Type} [DecidableEq α]
    (l : List (α × β)) (k : α) (v : β) (h : alookup l k = some v) :
    max (keyCount l k) 1 = keyCount l k := by
  induction l with
  | nil => simp [alookup] at h
  | cons kv0 rest ih =>
    obtain ⟨k0, v0⟩ := kv0
    by_cases h0 : k0 = k
    · simp [keyCount, List.filter_cons, h0]
    · simp only [alookup, if_neg h0] at h
      simp only [keyCount, List.filter_cons, h0] at *
      simp only [decide_eq_true_eq]
      rw [if_neg h0]
      exact ih h

/-! ### Claim theorems -/

/-- Claim C8: `parse_rpc_packet` returns an error for every packet whose
body variant is not `TaRpc`; for a packet whose body is `TaRpc` but
whose `to_peer` is absent it does not return an error but panics (the
`unwrap` on the optional `to_peer`), and it succeeds exactly on `TaRpc`
packets with `to_peer` present. -/
theorem c8_parse_rpc_packet_totality (fp : UUID) (tp : Option UUID)
    (sid : PeerRpcServiceId) (is_req : Bool) (content : List Nat)
    (x y : Nat) :
    parse_rpc_packet ⟨fp, tp, .Other x⟩ = .error ∧
    parse_rpc_packet ⟨fp, tp, .Ctrl (.OtherCtrl y)⟩ = .error ∧
    parse_rpc_packet ⟨fp, none, .Ctrl (.TaRpc sid is_req content)⟩ =
      .panicked ∧
    ∀ t : UUID,
      parse_rpc_packet ⟨fp, some t, .Ctrl (.TaRpc sid is_req content)⟩ =
        .ok ⟨fp, t, sid, is_req, content⟩ :=
  ⟨rfl, rfl, rfl, fun _ => rfl⟩

/-- Claim C5: Calling `run_service` with an already-registered
`service_id` panics deterministically, and calling it with a fresh
`service_id` succeeds and adds a factory entry for that id. -/
theorem c5_run_service_registration (st : PeerRpcManagerState)
    (service_id : PeerRpcServiceId) (handler : Nat) :
    ((alookup st.service_registry service_id).isSome →
      (run_service st service_id handler).2 = true) ∧
    (alookup st.service_registry service_id = none →
      (run_service st service_id handler).2 = false ∧
      alookup (run_service st service_id handler).1.service_registry
        service_id = some ⟨service_id, handler⟩) := by
  constructor
  · intro h
    simp [run_service, h]
  · intro h
    exact ⟨by simp [run_service, h], by simp [run_service, alookup_ainsert_self]⟩

/-- Witness for C5: registering service 1 twice panics on the second
call; registering the fresh service 2 succeeds and stores its factory.
-/
theorem c5_run_service_registration_witness :
    (run_service ⟨[(1, ⟨1, 5⟩)], [], []⟩ 1 7).2 = true ∧
    (run_service ⟨[(1, ⟨1, 5⟩)], [], []⟩ 2 7).2 = false ∧
    alookup (run_service ⟨[(1, ⟨1, 5⟩)], [], []⟩ 2 7).1.service_registry 2 =
      some ⟨2, 7⟩ :=
  ⟨(c5_run_service_registration ⟨[(1, ⟨1, 5⟩)], [], []⟩ 1 7).1 (by decide),
   ((c5_run_service_registration ⟨[(1, ⟨1, 5⟩)], [], []⟩ 2 7).2 (by decide)).1,
   ((c5_run_service_registration ⟨[(1, ⟨1, 5⟩)], [], []⟩ 2 7).2 (by decide)).2⟩

/-- Claim C9: When `run_service` is called with an already-registered
`service_id`, the registry entry is replaced by the new factory before
the panic fires: the call panics, yet afterwards the registry maps the
id to the new creator. -/
theorem c9_registry_mutated_before_panic (st : PeerRpcManagerState)
    (service_id : PeerRpcServiceId) (handler : Nat) (c0 : Creator)
    (hold : alookup st.service_registry service_id = some c0) :
    (run_service st service_id handler).2 = true ∧
    alookup (run_service st service_id handler).1.service_registry
      service_id = some ⟨service_id, handler⟩ :=
  ⟨by simp [run_service, hold],
   by simp [run_service, alookup_ainsert_self]⟩

/-- Witness for C9: re-registering service 1 (old handler 5, new handler
7) panics, and the registry ends up holding the new factory. -/
theorem c9_registry_mutated_before_panic_witness :
    (run_service ⟨[(1, ⟨1, 5⟩)], [], []⟩ 1 7).2 = true ∧
    alookup (run_service ⟨[(1, ⟨1, 5⟩)], [], []⟩ 1 7).1.service_registry 1 =
      some ⟨1, 7⟩ :=
  c9_registry_mutated_before_panic ⟨[(1, ⟨1, 5⟩)], [], []⟩ 1 7 ⟨1, 5⟩
    (by decide)

/-- Claim C1: In the dispatcher's request path, for a decoded request
packet whose `service_id` is registered, the endpoint is looked up (and
lazily inserted) under the key `(info.to_peer, info.service_id)` while
the factory is invoked with `info.from_peer` as the bound remote peer,
and the packet is enqueued into that endpoint's inbound queue. -/
theorem c1_dispatch_request_path (st : PeerRpcManagerState)
    (packet : Packet) (info : TaRpcPacketInfo) (creator : Creator)
    (hp : parse_rpc_packet packet = .ok info)
    (hreq : info.is_req = true)
    (hc : alookup st.service_registry info.service_id = some creator) :
    (alookup st.peer_rpc_endpoints (info.to_peer, info.service_id) = none →
      (dispatchPacket st packet).2 =
        .enqueuedToEndpoint (info.to_peer, info.service_id) true ∧
      alookup (dispatchPacket st packet).1.peer_rpc_endpoints
          (info.to_peer, info.service_id) =
        some ⟨info.from_peer, creator.captured_service_id, [packet]⟩) ∧
    (∀ ep,
      alookup st.peer_rpc_endpoints (info.to_peer, info.service_id) =
        some ep →
      (dispatchPacket st packet).2 =
        .enqueuedToEndpoint (info.to_peer, info.service_id) false ∧
      alookup (dispatchPacket st packet).1.peer_rpc_endpoints
          (info.to_peer, info.service_id) =
        some { ep with inbox := ep.inbox ++ [packet] }) := by
  constructor
  · intro hep
    simp [dispatchPacket, hp, hreq, hc, hep, alookup_ainsert_self]
  · intro ep hep
    simp [dispatchPacket, hp, hreq, hc, hep, alookup_ainsert_self]

/-- Witness for C1: a request from peer 10 to peer 1 on registered
service 1 creates the endpoint under key `(1, 1)` bound to remote 10
with the packet enqueued. -/
theorem c1_dispatch_request_path_witness :
    (dispatchPacket ⟨[(1, ⟨1, 0⟩)], [], []⟩
        ⟨10, some 1, .Ctrl (.TaRpc 1 true [7])⟩).2 =
      .enqueuedToEndpoint (1, 1) true ∧
    alookup (dispatchPacket ⟨[(1, ⟨1, 0⟩)], [], []⟩
        ⟨10, some 1, .Ctrl (.TaRpc 1 true [7])⟩).1.peer_rpc_endpoints
        (1, 1) =
      some ⟨10, 1, [⟨10, some 1, .Ctrl (.TaRpc 1 true [7])⟩]⟩ :=
  (c1_dispatch_request_path ⟨[(1, ⟨1, 0⟩)], [], []⟩
      ⟨10, some 1, .Ctrl (.TaRpc 1 true [7])⟩ ⟨10, 1, 1, true, [7]⟩ ⟨1, 0⟩
      (by decide) (by decide) (by decide)).1 (by decide)

/-- Claim C6: In the dispatcher's response path, a response packet is
delivered to the client sink registered under `(info.from_peer,
info.service_id)` when one exists; when no such sink exists the packet
is dropped and the dispatcher loop continues serving the remaining
packets. -/
theorem c6_dispatch_response_path (st : PeerRpcManagerState)
    (packet : Packet) (info : TaRpcPacketInfo) (rest : List Packet)
    (hp : parse_rpc_packet packet = .ok info)
    (hresp : info.is_req = false) :
    (∀ q,
      alookup st.client_resp_receivers (info.from_peer, info.service_id) =
        some q →
      (dispatchPacket st packet).2 =
        .deliveredToClient (info.from_peer, info.service_id) ∧
      alookup (dispatchPacket st packet).1.client_resp_receivers
          (info.from_peer, info.service_id) = some (q ++ [packet])) ∧
    (alookup st.client_resp_receivers (info.from_peer, info.service_id) =
        none →
      dispatchPacket st packet = (st, .dropNoClientSink) ∧
      dispatchAll st (packet :: rest) =
        ((dispatchAll st rest).1,
          .dropNoClientSink :: (dispatchAll st rest).2)) := by
  constructor
  · intro q hq
    simp [dispatchPacket, hp, hresp, hq, alookup_ainsert_self]
  · intro hnone
    have hd : dispatchPacket st packet = (st, .dropNoClientSink) := by
      simp [dispatchPacket, hp, hresp, hnone]
    exact ⟨hd, by simp [dispatchAll, hd, DispatchAction.isPanic]⟩

/-- Witness for C6: a response from peer 10 on service 1 reaches the
sink registered under `(10, 1)`; with no sink registered the same packet
is dropped and the next packet is still dispatched. -/
theorem c6_dispatch_response_path_witness :
    ((dispatchPacket ⟨[], [], [((10, 1), [])]⟩
        ⟨10, some 0, .Ctrl (.TaRpc 1 false [9])⟩).2 =
      .deliveredToClient (10, 1) ∧
     alookup (dispatchPacket ⟨[], [], [((10, 1), [])]⟩
        ⟨10, some 0, .Ctrl (.TaRpc 1 false [9])⟩).1.client_resp_receivers
        (10, 1) =
      some [⟨10, some 0, .Ctrl (.TaRpc 1 false [9])⟩]) ∧
    (dispatchPacket ⟨[], [], []⟩ ⟨10, some 0, .Ctrl (.TaRpc 1 false [9])⟩ =
      (⟨[], [], []⟩, .dropNoClientSink) ∧
     dispatchAll ⟨[], [], []⟩
        [⟨10, some 0, .Ctrl (.TaRpc 1 false [9])⟩,
         ⟨10, some 0, .Ctrl (.TaRpc 1 false [9])⟩] =
      ((dispatchAll ⟨[], [], []⟩
          [⟨10, some 0, .Ctrl (.TaRpc 1 false [9])⟩]).1,
        .dropNoClientSink ::
          (dispatchAll ⟨[], [], []⟩
            [⟨10, some 0, .Ctrl (.TaRpc 1 false [9])⟩]).2)) :=
  ⟨by
    have h := (c6_dispatch_response_path ⟨[], [], [((10, 1), [])]⟩
      ⟨10, some 0, .Ctrl (.TaRpc 1 false [9])⟩ ⟨10, 0, 1, false, [9]⟩ []
      (by decide) (by decide)).1 [] (by decide)
    simpa using h,
   (c6_dispatch_response_path ⟨[], [], []⟩
      ⟨10, some 0, .Ctrl (.TaRpc 1 false [9])⟩ ⟨10, 0, 1, false, [9]⟩
      [⟨10, some 0, .Ctrl (.TaRpc 1 false [9])⟩]
      (by decide) (by decide)).2 (by decide)⟩

/-- Request-path step, endpoint present: with service `S` registered and
an endpoint stored under `(T, S)`, the dispatcher appends the packet to
that endpoint's inbound queue and changes nothing else. -/
theorem dispatchPacket_request_existing (st : PeerRpcManagerState)
    (q : Packet) (T : UUID) (S : PeerRpcServiceId) (ep : PeerRpcEndPoint)
    (creator : Creator) (content : List Nat)
    (hto : q.to_peer = some T)
    (hbody : q.body = .Ctrl (.TaRpc S true content))
    (hreg : alookup st.service_registry S = some creator)
    (hep : alookup st.peer_rpc_endpoints (T, S) = some ep) :
    dispatchPacket st q =
      ({ st with
          peer_rpc_endpoints :=
            ainsert st.peer_rpc_endpoints (T, S)
              { ep with inbox := ep.inbox ++ [q] } },
       .enqueuedToEndpoint (T, S) false) := by
  have hp : parse_rpc_packet q = .ok ⟨q.from_peer, T, S, true, content⟩ := by
    simp [parse_rpc_packet, hbody, hto]
  simp [dispatchPacket, hp, hreg, hep]

/-- Request-path step, endpoint absent: with service `S` registered and
no endpoint under `(T, S)`, the dispatcher invokes the creator with the
packet's `from_peer` and inserts the fresh endpoint with the packet
enqueued. -/
theorem dispatchPacket_request_new (st : PeerRpcManagerState)
    (q : Packet) (T : UUID) (S : PeerRpcServiceId)
    (creator : Creator) (content : List Nat)
    (hto : q.to_peer = some T)
    (hbody : q.body = .Ctrl (.TaRpc S true content))
    (hreg : alookup st.service_registry S = some creator)
    (hnone : alookup st.peer_rpc_endpoints (T, S) = none) :
    dispatchPacket st q =
      ({ st with
          peer_rpc_endpoints :=
            ainsert st.peer_rpc_endpoints (T, S)
              ⟨q.from_peer, creator.captured_service_id, [q]⟩ },
       .enqueuedToEndpoint (T, S) true) := by
  have hp : parse_rpc_packet q = .ok ⟨q.from_peer, T, S, true, content⟩ := by
    simp [parse_rpc_packet, hbody, hto]
  simp [dispatchPacket, hp, hreg, hnone]

/-- Running the dispatcher over a sequence of requests that all target
an existing endpoint `(T, S)` appends them, in order, to that endpoint's
inbound queue, leaves every other key and the registry untouched, and
leaves the number of `(T, S)` entries unchanged. -/
theorem dispatchAll_requests_existing (st : PeerRpcManagerState)
    (T : UUID) (S : PeerRpcServiceId) (ep : PeerRpcEndPoint)
    (ps : List Packet)
    (hreg : (alookup st.service_registry S).isSome)
    (hep : alookup st.peer_rpc_endpoints (T, S) = some ep)
    (hall : ∀ q ∈ ps, isReqTo T S q) :
    alookup (dispatchAll st ps).1.peer_rpc_endpoints (T, S) =
      some { ep with inbox := ep.inbox ++ ps } ∧
    (∀ k, k ≠ (T, S) →
      alookup (dispatchAll st ps).1.peer_rpc_endpoints k =
        alookup st.peer_rpc_endpoints k) ∧
    keyCount (dispatchAll st ps).1.peer_rpc_endpoints (T, S) =
      keyCount st.peer_rpc_endpoints (T, S) := by
  induction ps generalizing st ep with
  | nil => simp [dispatchAll, hep]
  | cons q rest ih =>
    obtain ⟨hto, content, hbody⟩ := hall q (List.mem_cons_self _ _)
    obtain ⟨creator, hcr⟩ := Option.isSome_iff_exists.mp hreg
    have hstep :=
      dispatchPacket_request_existing st q T S ep creator content hto hbody
        hcr hep
    have hall' : ∀ q' ∈ rest, isReqTo T S q' :=
      fun q' hq' => hall q' (List.mem_cons_of_mem _ hq')
    have h1 :
        dispatchAll st (q :: rest) =
          ((dispatchAll (dispatchPacket st q).1 rest).1,
            .enqueuedToEndpoint (T, S) false ::
              (dispatchAll (dispatchPacket st q).1 rest).2) := by
      rw [dispatchAll, hstep]
      simp [DispatchAction.isPanic, hstep]
    have hreg' :
        (alookup (dispatchPacket st q).1.service_registry S).isSome := by
      rw [hstep]
      simpa using hreg
    have hep' :
        alookup (dispatchPacket st q).1.peer_rpc_endpoints (T, S) =
          some { ep with inbox := ep.inbox ++ [q] } := by
      rw [hstep]
      simp [alookup_ainsert_self]
    obtain ⟨ha, hb, hc2⟩ :=
      ih (dispatchPacket st q).1 { ep with inbox := ep.inbox ++ [q] }
        hreg' hep' hall'
    refine ⟨?_, ?_, ?_⟩
    · rw [h1]
      rw [ha]
      simp
    · intro k hk
      rw [h1]
      rw [hb k hk, hstep]
      simp [alookup_ainsert_ne _ _ _ _ hk]
    · rw [h1]
      rw [hc2, hstep]
      simp only []
      rw [keyCount_ainsert]
      exact alookup_isSome_keyCount _ _ _ hep

/-- Claim C3, counterexample: The endpoint map is keyed by the packet's
`to_peer`, not by the remote peer: two requests from the same remote
peer 10 on the registered service 1, carrying different `to_peer`
values, create two endpoints both bound to remote peer 10 and service 1
— refuting "at most one endpoint ever exists per `(remote_peer,
service_id)`" and "exactly one endpoint instance is created for a
sequence of requests from a single peer". -/
theorem c3_counterexample :
    endpointsBoundTo
      (dispatchAll ⟨[(1, ⟨1, 0⟩)], [], []⟩
        [⟨10, some 1, .Ctrl (.TaRpc 1 true [7])⟩,
         ⟨10, some 2, .Ctrl (.TaRpc 1 true [8])⟩]).1.peer_rpc_endpoints
      10 1 = 2 := by decide

/-- Claim C3, amended: For any nonempty sequence of inbound requests on a
registered service `S` that all carry the same `to_peer` value `T`,
starting with no endpoint under `(T, S)`: exactly one endpoint map entry
is created, under key `(T, S)`, by invoking the factory with the first
request's `from_peer` as the bound remote peer; every subsequent such
request reuses it (its packet is appended to the same inbound queue); no
other key is touched; and afterwards exactly one entry exists for the
key `(T, S)`. -/
theorem c3_amended_one_endpoint_per_key (st : PeerRpcManagerState)
    (T : UUID) (S : PeerRpcServiceId) (creator : Creator)
    (p : Packet) (ps : List Packet)
    (hreg : alookup st.service_registry S = some creator)
    (hnone : alookup st.peer_rpc_endpoints (T, S) = none)
    (hall : ∀ q ∈ p :: ps, isReqTo T S q) :
    alookup (dispatchAll st (p :: ps)).1.peer_rpc_endpoints (T, S) =
      some ⟨p.from_peer, creator.captured_service_id, p :: ps⟩ ∧
    (∀ k, k ≠ (T, S) →
      alookup (dispatchAll st (p :: ps)).1.peer_rpc_endpoints k =
        alookup st.peer_rpc_endpoints k) ∧
    keyCount (dispatchAll st (p :: ps)).1.peer_rpc_endpoints (T, S) = 1 := by
  obtain ⟨hto, content, hbody⟩ := hall p (List.mem_cons_self _ _)
  have hstep :=
    dispatchPacket_request_new st p T S creator content hto hbody hreg hnone
  have hall' : ∀ q' ∈ ps, isReqTo T S q' :=
    fun q' hq' => hall q' (List.mem_cons_of_mem _ hq')
  have h1 :
      dispatchAll st (p :: ps) =
        ((dispatchAll (dispatchPacket st p).1 ps).1,
          .enqueuedToEndpoint (T, S) true ::
            (dispatchAll (dispatchPacket st p).1 ps).2) := by
    rw [dispatchAll, hstep]
    simp [DispatchAction.isPanic, hstep]
  have hreg' :
      (alookup (dispatchPacket st p).1.service_registry S).isSome := by
    rw [hstep]
    simp [hreg]
  have hep' :
      alookup (dispatchPacket st p).1.peer_rpc_endpoints (T, S) =
        some ⟨p.from_peer, creator.captured_service_id, [p]⟩ := by
    rw [hstep]
    simp [alookup_ainsert_self]
  obtain ⟨ha, hb, hc2⟩ :=
    dispatchAll_requests_existing (dispatchPacket st p).1 T S
      ⟨p.from_peer, creator.captured_service_id, [p]⟩ ps hreg' hep' hall'
  refine ⟨?_, ?_, ?_⟩
  · rw [h1]
    rw [ha]
    simp
  · intro k hk
    rw [h1]
    rw [hb k hk, hstep]
    simp [alookup_ainsert_ne _ _ _ _ hk]
  · rw [h1]
    rw [hc2, hstep]
    simp only []
    rw [keyCount_ainsert]
    rw [alookup_none_keyCount _ _ hnone]
    decide

/-- Witness for the amended C3: requests from peers 10 and 20, both
addressed `to_peer = 1` on service 1, share the single endpoint created
by the first request (bound to remote 10). -/
theorem c3_amended_one_endpoint_per_key_witness :
    alookup
      (dispatchAll ⟨[(1, ⟨1, 0⟩)], [], []⟩
        [⟨10, some 1, .Ctrl (.TaRpc 1 true [7])⟩,
         ⟨20, some 1, .Ctrl (.TaRpc 1 true [8])⟩]).1.peer_rpc_endpoints
      (1, 1) =
      some ⟨10, 1,
        [⟨10, some 1, .Ctrl (.TaRpc 1 true [7])⟩,
         ⟨20, some 1, .Ctrl (.TaRpc 1 true [8])⟩]⟩ ∧
    keyCount
      (dispatchAll ⟨[(1, ⟨1, 0⟩)], [], []⟩
        [⟨10, some 1, .Ctrl (.TaRpc 1 true [7])⟩,
         ⟨20, some 1, .Ctrl (.TaRpc 1 true [8])⟩]).1.peer_rpc_endpoints
      (1, 1) = 1 := by
  have h := c3_amended_one_endpoint_per_key ⟨[(1, ⟨1, 0⟩)], [], []⟩ 1 1 ⟨1, 0⟩
    ⟨10, some 1, .Ctrl (.TaRpc 1 true [7])⟩
    [⟨20, some 1, .Ctrl (.TaRpc 1 true [8])⟩]
    (by decide) (by decide)
    (by
      intro q hq
      simp only [List.mem_cons, List.mem_singleton] at hq
      rcases hq with rfl | rfl | h
      · exact ⟨rfl, [7], rfl⟩
      · exact ⟨rfl, [8], rfl⟩
      · cases h)
  exact ⟨h.1, h.2.2⟩

/-- Claim C2, counterexample: The bridge task's `select!` loop does not
serialize requests: fed two inbound requests with no response in
between, it injects both into the in-process server channel — the
resulting effect trace has two injections with no response forwarded
between them, so the strictly-serial discipline is violated. -/
theorem c2_counterexample :
    strictlySerial false
      (bridgeRun
        (⟨fun r => some r, fun b => some b, 0, 10, 1⟩ :
          BridgeCfg (List Nat) (List Nat))
        ⟨none⟩
        [.inboundPacket ⟨10, some 0, .Ctrl (.TaRpc 1 true [3])⟩,
         .inboundPacket ⟨10, some 0, .Ctrl (.TaRpc 1 true [4])⟩]).2 =
      false := rfl

/-- Claim C2, amended: The bridge does not enforce serial processing: an
inbound request that parses, matches the captured service id, and
decodes is injected into the in-process server channel regardless of the
slot state — in particular even while a previously injected request's
response is still pending — and it overwrites the current-request-origin
slot with the packet's `from_peer`. -/
theorem c2_bridge_injects_unconditionally {Resp Req : Type}
    (cfg : BridgeCfg Resp Req) (st : BridgeState) (p : Packet)
    (info : TaRpcPacketInfo) (m : Req)
    (hp : parse_rpc_packet p = .ok info)
    (hsid : info.service_id = cfg.service_id)
    (hm : cfg.deserReq info.content = some m) :
    bridgeStep cfg st (.inboundPacket p) =
      (⟨some p.from_peer⟩, .injectReq m) := by
  simp [bridgeStep, hp, hsid, hm]

/-- Witness for the amended C2: with the slot still holding the pending
origin 99, a fresh request from peer 10 is injected anyway and the slot
is overwritten to 10. -/
theorem c2_bridge_injects_unconditionally_witness :
    bridgeStep
      (⟨fun r => some r, fun b => some b, 0, 10, 1⟩ :
        BridgeCfg (List Nat) (List Nat))
      ⟨some 99⟩
      (.inboundPacket ⟨10, some 0, .Ctrl (.TaRpc 1 true [3])⟩) =
      (⟨some 10⟩, .injectReq [3]) :=
  c2_bridge_injects_unconditionally
    (⟨fun r => some r, fun b => some b, 0, 10, 1⟩ :
      BridgeCfg (List Nat) (List Nat))
    ⟨some 99⟩ ⟨10, some 0, .Ctrl (.TaRpc 1 true [3])⟩
    ⟨10, 0, 1, true, [3]⟩ [3] (by decide) (by decide) rfl

theorem bridgeRun_cons_of_not_panic {Resp Req : Type}
    (cfg : BridgeCfg Resp Req) (st st' : BridgeState)
    (ev : BridgeEvent Resp) (rest : List (BridgeEvent Resp))
    (eff : BridgeEffect Req)
    (hstep : bridgeStep cfg st ev = (st', eff))
    (hnp : eff.isPanic = false) :
    bridgeRun cfg st (ev :: rest) =
      ((bridgeRun cfg st' rest).1, eff :: (bridgeRun cfg st' rest).2) := by
  rw [bridgeRun, hstep]
  simp [hnp]

theorem bridgeRun_cons_of_panic {Resp Req : Type}
    (cfg : BridgeCfg Resp Req) (st st' : BridgeState)
    (ev : BridgeEvent Resp) (rest : List (BridgeEvent Resp))
    (hstep : bridgeStep cfg st ev = (st', .panicked)) :
    bridgeRun cfg st (ev :: rest) = (st', [.panicked]) := by
  rw [bridgeRun, hstep]
  simp [BridgeEffect.isPanic]

/-- Generalized response-pairing invariant of the bridge task: starting
from a state whose slot origin (when present) lies in `S`, the number of
responses handed to the transport is bounded by the slot indicator plus
the number of inbound packets in the trace, and every emitted response
packet carries `from = my_peer_id`, is handed to the transport addressed
to the bound remote peer, has a `TaRpc(service_id, is_request=false)`
body, and has `to_peer` equal to an origin from `S` or recorded from an
inbound request of the trace. -/
theorem bridgeRun_response_invariant {Resp Req : Type}
    (cfg : BridgeCfg Resp Req) (st : BridgeState)
    (evs : List (BridgeEvent Resp)) (S : List UUID)
    (hslot : ∀ u, st.cur_req_uuid = some u → u ∈ S) :
    countSendResp (bridgeRun cfg st evs).2 ≤
      (if st.cur_req_uuid.isSome then 1 else 0) + countInbound evs ∧
    ∀ pkt dst,
      BridgeEffect.sendResp pkt dst ∈ (bridgeRun cfg st evs).2 →
      pkt.from_peer = cfg.my_peer_id ∧ dst = cfg.peer_id ∧
      (∃ bytes, pkt.body = .Ctrl (.TaRpc cfg.service_id false bytes)) ∧
      (∃ u, pkt.to_peer = some u ∧ (u ∈ S ∨ u ∈ inboundOrigins evs)) := by
  induction evs generalizing st S with
  | nil =>
    constructor
    · simp [bridgeRun, countSendResp]
    · intro pkt dst hm
      simp [bridgeRun] at hm
  | cons ev rest ih =>
    cases ev with
    | clientResp r =>
      have hskip :
          ∀ (hstep : bridgeStep cfg st (.clientResp r) = (st, .skip)),
          countSendResp (bridgeRun cfg st (.clientResp r :: rest)).2 ≤
            (if st.cur_req_uuid.isSome then 1 else 0) +
              countInbound (BridgeEvent.clientResp r :: rest) ∧
          ∀ pkt dst,
            BridgeEffect.sendResp pkt dst ∈
              (bridgeRun cfg st (.clientResp r :: rest)).2 →
            pkt.from_peer = cfg.my_peer_id ∧ dst = cfg.peer_id ∧
            (∃ bytes, pkt.body = .Ctrl (.TaRpc cfg.service_id false bytes)) ∧
            (∃ u, pkt.to_peer = some u ∧
              (u ∈ S ∨ u ∈ inboundOrigins (BridgeEvent.clientResp r :: rest))) := by
        intro hstep
        rw [bridgeRun_cons_of_not_panic cfg st st _ rest _ hstep rfl]
        obtain ⟨iha, ihb⟩ := ih st S hslot
        constructor
        · simpa [countSendResp, countInbound] using iha
        · intro pkt dst hm
          simp only [List.mem_cons] at hm
          rcases hm with hm | hm
          · cases hm
          · obtain ⟨h1, h2, h3, u, h4, h5⟩ := ihb pkt dst hm
            exact ⟨h1, h2, h3, u, h4, by simpa [inboundOrigins] using h5⟩
      cases r with
      | error e => exact hskip rfl
      | ok resp =>
        cases hcur : st.cur_req_uuid with
        | none =>
          exact hcur ▸ hskip (by simp [bridgeStep, hcur])
        | some origin =>
          cases hser : cfg.serResp resp with
          | none =>
            exact hcur ▸ hskip (by simp [bridgeStep, hcur, hser])
          | some bytes =>
            have hstep :
                bridgeStep cfg st (.clientResp (.ok resp)) =
                  (⟨none⟩,
                   .sendResp
                     (Packet.new_tarpc_packet cfg.my_peer_id origin
                       cfg.service_id false bytes)
                     cfg.peer_id) := by
              simp [bridgeStep, hcur, hser]
            rw [bridgeRun_cons_of_not_panic cfg st ⟨none⟩ _ rest _ hstep rfl]
            obtain ⟨iha, ihb⟩ := ih ⟨none⟩ S (by intro u hu; cases hu)
            constructor
            · simp only [countSendResp, countInbound]
              simp at iha ⊢
              omega
            · intro pkt dst hm
              simp only [List.mem_cons] at hm
              rcases hm with hm | hm
              · obtain ⟨rfl, rfl⟩ :
                    pkt = Packet.new_tarpc_packet cfg.my_peer_id origin
                        cfg.service_id false bytes ∧
                      dst = cfg.peer_id := by
                  cases hm
                  exact ⟨rfl, rfl⟩
                exact ⟨rfl, rfl, ⟨bytes, rfl⟩,
                  origin, rfl, Or.inl (hslot origin hcur)⟩
              · obtain ⟨h1, h2, h3, u, h4, h5⟩ := ihb pkt dst hm
                exact ⟨h1, h2, h3, u, h4, by simpa [inboundOrigins] using h5⟩
    | inboundPacket p =>
      cases hp : parse_rpc_packet p with
      | error =>
        have hstep : bridgeStep cfg st (.inboundPacket p) = (st, .skip) := by
          simp [bridgeStep, hp]
        rw [bridgeRun_cons_of_not_panic cfg st st _ rest _ hstep rfl]
        obtain ⟨iha, ihb⟩ := ih st S hslot
        constructor
        · simp only [countSendResp, countInbound]
          omega
        · intro pkt dst hm
          simp only [List.mem_cons] at hm
          rcases hm with hm | hm
          · cases hm
          · obtain ⟨h1, h2, h3, u, h4, h5⟩ := ihb pkt dst hm
            refine ⟨h1, h2, h3, u, h4, ?_⟩
            rcases h5 with h5 | h5
            · exact Or.inl h5
            · exact Or.inr (by simp [inboundOrigins, h5])
      | panicked =>
        have hstep :
            bridgeStep cfg st (.inboundPacket p) = (st, .panicked) := by
          simp [bridgeStep, hp]
        rw [bridgeRun_cons_of_panic cfg st st _ rest hstep]
        constructor
        · simp [countSendResp, countInbound]
        · intro pkt dst hm
          simp [countSendResp] at hm
      | ok info =>
        by_cases hs : info.service_id = cfg.service_id
        · have hnext :
              ∀ (eff : BridgeEffect Req),
              (eff = .skip ∨ ∃ m, eff = .injectReq m) →
              bridgeStep cfg st (.inboundPacket p) =
                (⟨some p.from_peer⟩, eff) →
              countSendResp (bridgeRun cfg st (.inboundPacket p :: rest)).2 ≤
                (if st.cur_req_uuid.isSome then 1 else 0) +
                  countInbound (BridgeEvent.inboundPacket p :: rest) ∧
              ∀ pkt dst,
                BridgeEffect.sendResp pkt dst ∈
                  (bridgeRun cfg st (.inboundPacket p :: rest)).2 →
                pkt.from_peer = cfg.my_peer_id ∧ dst = cfg.peer_id ∧
                (∃ bytes,
                  pkt.body = .Ctrl (.TaRpc cfg.service_id false bytes)) ∧
                (∃ u, pkt.to_peer = some u ∧
                  (u ∈ S ∨
                    u ∈ inboundOrigins (BridgeEvent.inboundPacket p :: rest))) := by
            intro eff heff hstep
            have hnp : eff.isPanic = false := by
              rcases heff with rfl | ⟨m, rfl⟩ <;> rfl
            rw [bridgeRun_cons_of_not_panic cfg st ⟨some p.from_peer⟩ _ rest
              eff hstep hnp]
            obtain ⟨iha, ihb⟩ := ih ⟨some p.from_peer⟩ (p.from_peer :: S)
              (by intro u hu; injection hu with hu; simp [hu])
            have hcount : countSendResp (eff :: (bridgeRun cfg
                (⟨some p.from_peer⟩ : BridgeState) rest).2) =
                countSendResp (bridgeRun cfg
                  (⟨some p.from_peer⟩ : BridgeState) rest).2 := by
              rcases heff with rfl | ⟨m, rfl⟩ <;> rfl
            constructor
            · rw [hcount]
              simp only [countInbound]
              simp at iha
              split <;> omega
            · intro pkt dst hm
              simp only [List.mem_cons] at hm
              rcases hm with hm | hm
              · exfalso
                rcases heff with rfl | ⟨m, rfl⟩ <;> cases hm
              · obtain ⟨h1, h2, h3, u, h4, h5⟩ := ihb pkt dst hm
                refine ⟨h1, h2, h3, u, h4, ?_⟩
                rcases h5 with h5 | h5
                · simp only [List.mem_cons] at h5
                  rcases h5 with rfl | h5
                  · exact Or.inr (by simp [inboundOrigins])
                  · exact Or.inl h5
                · exact Or.inr (by simp [inboundOrigins, h5])
          cases hd : cfg.deserReq info.content with
          | none =>
            exact hnext .skip (Or.inl rfl) (by simp [bridgeStep, hp, hs, hd])
          | some m =>
            exact hnext (.injectReq m) (Or.inr ⟨m, rfl⟩)
              (by simp [bridgeStep, hp, hs, hd])
        · have hstep :
              bridgeStep cfg st (.inboundPacket p) = (st, .panicked) := by
            simp [bridgeStep, hp, hs]
          rw [bridgeRun_cons_of_panic cfg st st _ rest hstep]
          constructor
          · simp [countSendResp, countInbound]
          · intro pkt dst hm
            simp [countSendResp] at hm

/-- Claim C4: For every trace of the bridge task started with an empty
slot: at most as many response packets are handed to the transport as
requests were enqueued; every emitted response has `from = my_peer_id`,
body `TaRpc(service_id, is_request = false, _)`, is addressed to the
bound remote peer, and its `to_peer` is the origin recorded from an
enqueued request; and a handler response arriving while the
current-request-origin slot is empty is dropped — the state is unchanged
and nothing is sent. -/
theorem c4_response_pairing {Resp Req : Type} (cfg : BridgeCfg Resp Req)
    (evs : List (BridgeEvent Resp)) :
    countSendResp (bridgeRun cfg ⟨none⟩ evs).2 ≤ countInbound evs ∧
    (∀ pkt dst,
      BridgeEffect.sendResp pkt dst ∈ (bridgeRun cfg ⟨none⟩ evs).2 →
      pkt.from_peer = cfg.my_peer_id ∧ dst = cfg.peer_id ∧
      (∃ bytes, pkt.body = .Ctrl (.TaRpc cfg.service_id false bytes)) ∧
      (∃ u, pkt.to_peer = some u ∧ u ∈ inboundOrigins evs)) ∧
    (∀ r, bridgeStep cfg ⟨none⟩ (.clientResp r) = (⟨none⟩, .skip)) := by
  obtain ⟨ha, hb⟩ :=
    bridgeRun_response_invariant cfg ⟨none⟩ evs [] (by intro u hu; cases hu)
  refine ⟨?_, ?_, ?_⟩
  · simpa using ha
  · intro pkt dst hm
    obtain ⟨h1, h2, h3, u, h4, h5⟩ := hb pkt dst hm
    rcases h5 with h5 | h5
    · cases h5
    · exact ⟨h1, h2, h3, u, h4, h5⟩
  · intro r
    cases r with
    | error e => rfl
    | ok resp => rfl

/-- Witness for C4: one request from peer 10 followed by one handler
response yields exactly one transport response, addressed back to
origin 10, and a response at an empty slot is dropped. -/
theorem c4_response_pairing_witness :
    countSendResp
      (bridgeRun
        (⟨fun r => some r, fun b => some b, 0, 10, 1⟩ :
          BridgeCfg (List Nat) (List Nat))
        ⟨none⟩
        [.inboundPacket ⟨10, some 0, .Ctrl (.TaRpc 1 true [3])⟩,
         .clientResp (.ok [5])]).2 ≤
      countInbound
        [BridgeEvent.inboundPacket ⟨10, some 0, .Ctrl (.TaRpc 1 true [3])⟩,
         BridgeEvent.clientResp (Except.ok ([5] : List Nat))] ∧
    (Packet.new_tarpc_packet 0 10 1 false [5]).from_peer = 0 ∧
    (∃ u, (Packet.new_tarpc_packet 0 10 1 false [5]).to_peer = some u ∧
      u ∈ inboundOrigins
        ([BridgeEvent.inboundPacket ⟨10, some 0, .Ctrl (.TaRpc 1 true [3])⟩,
          BridgeEvent.clientResp (Except.ok [5])] :
          List (BridgeEvent (List Nat)))) ∧
    bridgeStep
      (⟨fun r => some r, fun b => some b, 0, 10, 1⟩ :
        BridgeCfg (List Nat) (List Nat))
      ⟨none⟩ (.clientResp (.ok [5])) = (⟨none⟩, .skip) := by
  have h := c4_response_pairing
    (⟨fun r => some r, fun b => some b, 0, 10, 1⟩ :
      BridgeCfg (List Nat) (List Nat))
    [.inboundPacket ⟨10, some 0, .Ctrl (.TaRpc 1 true [3])⟩,
     .clientResp (.ok [5])]
  have hm := h.2.1 (Packet.new_tarpc_packet 0 10 1 false [5]) 10 (by decide)
  exact ⟨h.1, hm.1, hm.2.2.2, h.2.2 (.ok [5])⟩

/-- Claim C7: In `do_client_rpc_scoped`, every user-produced message the
egress task successfully serializes is wrapped in a `TaRpc` packet with
`from = my_peer_id`, `to = dst_peer_id`, the scope's `service_id`,
`is_request = true`, and handed to `tspt.send` addressed to
`dst_peer_id` (as is every packet the egress task emits); and the scope
registers its packet sink under `(dst_peer_id, service_id)`, replacing
any previously registered sink for that key, before `f` is awaited. -/
theorem c7_client_scope_egress {Msg : Type} (ser : Msg → Option (List Nat))
    (my_peer_id dst_peer_id : UUID) (service_id : PeerRpcServiceId)
    (msgs : List (Except Unit Msg)) (m : Msg) (bytes : List Nat)
    (sinks : List ((UUID × PeerRpcServiceId) × List Packet))
    (hm : Except.ok m ∈ msgs) (hser : ser m = some bytes) :
    (Packet.new_tarpc_packet my_peer_id dst_peer_id service_id true bytes,
      dst_peer_id) ∈
      egress_packets ser my_peer_id dst_peer_id service_id msgs ∧
    (∀ pr ∈ egress_packets ser my_peer_id dst_peer_id service_id msgs,
      pr.1.from_peer = my_peer_id ∧ pr.1.to_peer = some dst_peer_id ∧
      (∃ b, pr.1.body = .Ctrl (.TaRpc service_id true b)) ∧
      pr.2 = dst_peer_id) ∧
    alookup (register_client_resp_receiver sinks dst_peer_id service_id)
      (dst_peer_id, service_id) = some [] := by
  refine ⟨?_, ?_,
    by simp [register_client_resp_receiver, alookup_ainsert_self]⟩
  · induction msgs with
    | nil => cases hm
    | cons x rest ih =>
      rcases List.mem_cons.mp hm with hx | hmem
      · cases hx
        simp [egress_packets, hser]
      · cases x with
        | error e => simpa [egress_packets] using ih hmem
        | ok m2 =>
          cases hx2 : ser m2 with
          | none => simpa [egress_packets, hx2] using ih hmem
          | some b =>
            simp only [egress_packets, hx2]
            exact List.mem_cons_of_mem _ (ih hmem)
  · clear hm hser
    induction msgs with
    | nil =>
      intro pr hpr
      simp [egress_packets] at hpr
    | cons x rest ih =>
      intro pr hpr
      cases x with
      | error e => exact ih pr (by simpa [egress_packets] using hpr)
      | ok m2 =>
        cases hx2 : ser m2 with
        | none => exact ih pr (by simpa [egress_packets, hx2] using hpr)
        | some b =>
          simp only [egress_packets, hx2, List.mem_cons] at hpr
          rcases hpr with rfl | hpr
          · exact ⟨rfl, rfl, ⟨b, rfl⟩, rfl⟩
          · exact ih pr hpr

/-- Witness for C7: the message `[9]` serialized by the identity codec
is emitted as a `TaRpc(service 2, request)` packet from peer 0 to peer
7, and registering the scope's sink under `(7, 2)` replaces the stale
sink content with the fresh empty queue. -/
theorem c7_client_scope_egress_witness :
    (Packet.new_tarpc_packet 0 7 2 true [9], 7) ∈
      egress_packets (fun (m : List Nat) => some m) 0 7 2
        [Except.ok [9]] ∧
    alookup
      (register_client_resp_receiver [((7, 2), [⟨3, none, .Other 0⟩])] 7 2)
      (7, 2) = some [] := by
  have h := c7_client_scope_egress (fun (m : List Nat) => some m) 0 7 2
    [Except.ok [9]] [9] [9] [((7, 2), [⟨3, none, .Other 0⟩])]
    (by simp) rfl
  exact ⟨h.1, h.2.2⟩

/-- Inversion of a successful `parse_rpc_packet`: the packet was a
`TaRpc` control packet whose fields are those of the returned info. -/
theorem parse_rpc_packet_ok_inv (p : Packet) (info : TaRpcPacketInfo)
    (h : parse_rpc_packet p = .ok info) :
    p.from_peer = info.from_peer ∧ p.to_peer = some info.to_peer ∧
    p.body = .Ctrl (.TaRpc info.service_id info.is_req info.content) := by
  obtain ⟨fp, tp, body⟩ := p
  cases body with
  | Ctrl cb =>
    cases cb with
    | TaRpc id isr content =>
      cases tp with
      | some t =>
        simp only [parse_rpc_packet, ParseResult.ok.injEq] at h
        subst h
        exact ⟨rfl, rfl, rfl⟩
      | none => simp [parse_rpc_packet] at h
    | OtherCtrl t => simp [parse_rpc_packet] at h
  | Other t => simp [parse_rpc_packet] at h

/-- The dispatcher never touches the service registry. -/
theorem dispatchPacket_registry_unchanged (st : PeerRpcManagerState)
    (p : Packet) :
    (dispatchPacket st p).1.service_registry = st.service_registry := by
  simp only [dispatchPacket]
  repeat' split
  all_goals rfl

/-- One dispatcher iteration preserves the endpoint-map invariant. -/
theorem dispatchPacket_preserves_endpointsWF (st : PeerRpcManagerState)
    (p : Packet)
    (hreg : RegistryWF st.service_registry)
    (heps : EndpointsWF st.peer_rpc_endpoints) :
    EndpointsWF (dispatchPacket st p).1.peer_rpc_endpoints := by
  cases hp : parse_rpc_packet p with
  | error => simpa [dispatchPacket, hp] using heps
  | panicked => simpa [dispatchPacket, hp] using heps
  | ok info =>
    obtain ⟨hfrom, hto, hbody⟩ := parse_rpc_packet_ok_inv p info hp
    by_cases hq : info.is_req = true
    · cases hc : alookup st.service_registry info.service_id with
      | none => simpa [dispatchPacket, hp, hq, hc] using heps
      | some creator =>
        cases hep :
            alookup st.peer_rpc_endpoints (info.to_peer, info.service_id) with
        | some ep =>
          have hstep :=
            dispatchPacket_request_existing st p info.to_peer info.service_id
              ep creator info.content hto (by rw [hbody, hq]) hc hep
          rw [hstep]
          intro kv hkv
          rcases mem_ainsert _ _ _ _ hkv with rfl | hkv2
          · obtain ⟨hsid, hinv⟩ :=
              heps _ (alookup_mem _ _ _ hep)
            refine ⟨hsid, ?_⟩
            intro q hqm
            rcases List.mem_append.mp hqm with hq1 | hq2
            · exact hinv q hq1
            · have : q = p := by simpa using hq2
              subst this
              exact ⟨info, hp, by rw [hsid]⟩
          · exact heps _ hkv2
        | none =>
          have hstep :=
            dispatchPacket_request_new st p info.to_peer info.service_id
              creator info.content hto (by rw [hbody, hq]) hc hep
          rw [hstep]
          intro kv hkv
          rcases mem_ainsert _ _ _ _ hkv with rfl | hkv2
          · have hcap : creator.captured_service_id = info.service_id :=
              hreg _ (alookup_mem _ _ _ hc)
            refine ⟨hcap, ?_⟩
            intro q hqm
            have : q = p := by simpa using hqm
            subst this
            exact ⟨info, hp, by rw [hcap]⟩
          · exact heps _ hkv2
    · cases hs :
          alookup st.client_resp_receivers (info.from_peer, info.service_id) with
      | some q => simpa [dispatchPacket, hp, hq, hs] using heps
      | none => simpa [dispatchPacket, hp, hq, hs] using heps

/-- The dispatcher loop preserves the endpoint-map invariant over any
packet sequence. -/
theorem dispatchAll_preserves_endpointsWF (st : PeerRpcManagerState)
    (ps : List Packet)
    (hreg : RegistryWF st.service_registry)
    (heps : EndpointsWF st.peer_rpc_endpoints) :
    EndpointsWF (dispatchAll st ps).1.peer_rpc_endpoints := by
  induction ps generalizing st with
  | nil => simpa [dispatchAll] using heps
  | cons p rest ih =>
    rw [dispatchAll]
    split
    · exact dispatchPacket_preserves_endpointsWF st p hreg heps
    · exact ih (dispatchPacket st p).1
        (by rw [dispatchPacket_registry_unchanged]; exact hreg)
        (dispatchPacket_preserves_endpointsWF st p hreg heps)

/-- Claim C10: Starting from a well-formed registry (every creator
captured its own key, as `run_service` guarantees) and a well-formed
endpoint map, after any run of the dispatcher every packet in an
endpoint's inbound queue parses to that endpoint's own service id, so
the bridge task's `assert_eq!(info.service_id, service_id)` can never
fail — nor can its parse-`unwrap` — on a dispatcher-routed packet: the
bridge step on such a packet never panics. -/
theorem c10_endpoint_assert_never_fails (st : PeerRpcManagerState)
    (ps : List Packet)
    (hreg : RegistryWF st.service_registry)
    (heps : EndpointsWF st.peer_rpc_endpoints) :
    EndpointsWF (dispatchAll st ps).1.peer_rpc_endpoints ∧
    ∀ kv ∈ (dispatchAll st ps).1.peer_rpc_endpoints, ∀ p ∈ kv.2.inbox,
      ∀ cfg : BridgeCfg (List Nat) (List Nat),
        cfg.service_id = kv.2.bridge_service_id →
        ∀ stb : BridgeState,
          (bridgeStep cfg stb (.inboundPacket p)).2 ≠ .panicked := by
  have hwf := dispatchAll_preserves_endpointsWF st ps hreg heps
  refine ⟨hwf, ?_⟩
  intro kv hkv p hp cfg hcfg stb
  obtain ⟨info, hparse, hsid⟩ := (hwf kv hkv).2 p hp
  have hs : info.service_id = cfg.service_id := by rw [hsid, hcfg]
  cases hd : cfg.deserReq info.content with
  | none => simp [bridgeStep, hparse, hs, hd]
  | some m => simp [bridgeStep, hparse, hs, hd]

/-- Witness for C10: after dispatching one request on service 1, the
endpoint's sole inbound packet passes the bridge assertion — the bridge
step on it does not panic. -/
theorem c10_endpoint_assert_never_fails_witness :
    (bridgeStep
      (⟨fun r => some r, fun b => some b, 0, 10, 1⟩ :
        BridgeCfg (List Nat) (List Nat))
      ⟨none⟩
      (.inboundPacket ⟨10, some 1, .Ctrl (.TaRpc 1 true [7])⟩)).2 ≠
      .panicked := by
  have h := c10_endpoint_assert_never_fails ⟨[(1, ⟨1, 0⟩)], [], []⟩
    [⟨10, some 1, .Ctrl (.TaRpc 1 true [7])⟩]
    (by
      intro kv hkv
      simp only [List.mem_singleton] at hkv
      subst hkv
      rfl)
    (by intro kv hkv; cases hkv)
  exact h.2 ((1, 1), ⟨10, 1, [⟨10, some 1, .Ctrl (.TaRpc 1 true [7])⟩]⟩)
    (by decide) ⟨10, some 1, .Ctrl (.TaRpc 1 true [7])⟩ (by decide)
    (⟨fun r => some r, fun b => some b, 0, 10, 1⟩ :
      BridgeCfg (List Nat) (List Nat))
    rfl ⟨none⟩

end PeerRpc
